import Mathlib

/-!
Verification development for the muninn agent scheduler (src/muninn/models.py).

The datastore is modelled as explicit lists of records; ndb `put` is an
upsert keyed by a numeric key, queries are list filters with the fetch
limit modelled by `List.take`, and `ndb.get_multi` skips missing keys.
Times (`datetime`) are modelled as naturals, JSON payloads as naturals.
The pluggable capability class (`agent_cls(self).run(events)`, resolved
reflectively by `cls_from_name`) is an external collaborator: it is
modelled as a function from the agent record and the fetched events to
either a payload option or a raised error (`Except`).
-/

namespace Muninn

/-- Opaque JSON event payload, modelled as a natural number. -/
abbrev EventData := Nat

/-- Persisted agent record (class `AgentStore` in models.py) together with
its transient, non-persisted outbox buffer `new_events_queue`
(`self._new_events_queue`); a `none` entry in the buffer is Python `None`. -/
structure AgentStore where
  key : Nat
  name : String
  type : String
  is_active : Bool
  last_run : Nat
  next_run : Nat
  config : Nat
  can_receive_events : Bool
  can_generate_events : Bool
  is_running : Bool
  new_events_queue : List (Option EventData)
deriving DecidableEq, Repr

/-- Persisted event record (class `Event` in models.py). -/
structure Event where
  key : Nat
  data : EventData
  source : Nat
  target : Nat
  is_done : Bool
deriving DecidableEq, Repr

/-- Subscription edge (class `SourceAgent` in models.py): `agent` listens
to events generated by `source`. -/
structure SourceAgent where
  agent : Nat
  source : Nat
deriving DecidableEq, Repr

/-- The whole datastore state: one list of records per kind. -/
structure Datastore where
  agents : List AgentStore
  events : List Event
  edges : List SourceAgent
deriving DecidableEq, Repr

/-- ndb `agent.put()`: upsert the agent record by key. -/
def Datastore.putAgent (ds : Datastore) (a : AgentStore) : Datastore :=
  if ds.agents.any (fun x => x.key == a.key) then
    { ds with agents := ds.agents.map (fun x => if x.key == a.key then a else x) }
  else
    { ds with agents := ds.agents ++ [a] }

/-- ndb `event.put()`: upsert the event record by key. -/
def Datastore.putEvent (ds : Datastore) (e : Event) : Datastore :=
  if ds.events.any (fun x => x.key == e.key) then
    { ds with events := ds.events.map (fun x => if x.key == e.key then e else x) }
  else
    { ds with events := ds.events ++ [e] }

/-- ndb key lookup for an agent record. -/
def Datastore.getAgent (ds : Datastore) (k : Nat) : Option AgentStore :=
  ds.agents.find? (fun a => a.key == k)

/-- ndb `get_multi` on agent keys; keys that resolve to no record are
skipped. -/
def Datastore.getAgentMulti (ds : Datastore) (ks : List Nat) : List AgentStore :=
  ks.filterMap ds.getAgent

/-- `SourceAgent.get_listening_agents`: agents listening for events from
`source_agent`. -/
def SourceAgent.get_listening_agents (ds : Datastore) (source_agent : AgentStore) :
    List AgentStore :=
  ds.getAgentMulti ((ds.edges.filter (fun sa => sa.source == source_agent.key)).map
    (fun sa => sa.agent))

/-- `SourceAgent.get_source_agents`: agents that `agent` is listening to. -/
def SourceAgent.get_source_agents (ds : Datastore) (agent : AgentStore) :
    List AgentStore :=
  ds.getAgentMulti ((ds.edges.filter (fun sa => sa.agent == agent.key)).map
    (fun sa => sa.source))

/-- `AgentStore.due(time)`: query for agents with `next_run <= time`,
`is_running == False` and `is_active == True`. -/
def AgentStore.due (ds : Datastore) (time : Nat) : List AgentStore :=
  ds.agents.filter (fun a =>
    decide (a.next_run ≤ time) && (a.is_running == false) && (a.is_active == true))

/-- `AgentStore.new(name, agent_cls, source_agents, config)`: create and
persist a new agent record whose capability flags are copied from the
class, then create one subscription edge per supplied source agent that
can generate events.  When `source_agents` is `None` or the class cannot
receive events, the source list is replaced by the empty list.  The fresh
ndb key is modelled as the current number of agent records. -/
def AgentStore.new (ds : Datastore) (name ty : String)
    (cls_can_receive_events cls_can_generate_events : Bool)
    (source_agents : Option (List AgentStore)) (config : Nat) :
    Datastore × AgentStore :=
  let sources : List AgentStore :=
    match source_agents with
    | none => []
    | some l => if cls_can_receive_events then l else []
  let agent : AgentStore :=
    { key := ds.agents.length
      name := name
      type := ty
      is_active := true
      last_run := 0
      next_run := 0
      config := config
      can_receive_events := cls_can_receive_events
      can_generate_events := cls_can_generate_events
      is_running := false
      new_events_queue := [] }
  let ds1 := ds.putAgent agent
  let edges := sources.filterMap (fun s =>
    if s.can_generate_events = false then none
    else some { agent := agent.key, source := s.key })
  ({ ds1 with edges := ds1.edges ++ edges }, agent)

/-- Body of the loop of `AgentStore._put_events_queue`: walk the queued
payloads, returning `none` on the early-`return` paths (a `None` payload,
or a payload while the agent cannot generate events) and otherwise the
fan-out list of one event per listening agent per payload, in order. -/
def AgentStore.buildEvents (ds : Datastore) (self : AgentStore) :
    List (Option EventData) → Option (List Event)
  | [] => some []
  | none :: _ => none
  | some d :: rest =>
    if self.can_generate_events = false then none
    else
      match AgentStore.buildEvents ds self rest with
      | none => none
      | some evs =>
        ((SourceAgent.get_listening_agents ds self).map (fun a =>
          { key := 0
            data := d
            source := self.key
            target := a.key
            is_done := false })) ++ evs |> some

/-- Fresh ndb ids for a batch of new event records, modelled as
consecutive naturals from `start`. -/
def assignEventKeys (start : Nat) : List Event → List Event
  | [] => []
  | e :: rest => { e with key := start } :: assignEventKeys (start + 1) rest

/-- `AgentStore._put_events_queue` (the flush): on the early-`return`
paths nothing is persisted and the outbox buffer is left untouched;
otherwise the fan-out events are persisted by `ndb.put_multi` (with fresh
keys) and the buffer is cleared. -/
def AgentStore.put_events_queue (ds : Datastore) (self : AgentStore) :
    Datastore × AgentStore :=
  match AgentStore.buildEvents ds self self.new_events_queue with
  | none => (ds, self)
  | some evs =>
    ({ ds with events := ds.events ++ assignEventKeys ds.events.length evs },
     { self with new_events_queue := [] })

/-- `Event.for_agent(agent, source_agents, limit=25)`: undone events
targeting `agent`, further filtered to the given sources only when the
source list is non-empty (Python truthiness), truncated to `limit`. -/
def Event.for_agent (ds : Datastore) (agent : AgentStore)
    (source_agents : List AgentStore) (limit : Nat) : List Event :=
  let base := ds.events.filter (fun e =>
    (e.is_done == false) && (e.target == agent.key))
  let events :=
    if source_agents.isEmpty then base
    else base.filter (fun e => ((source_agents.map (fun s => s.key)).contains e.source))
  events.take limit

/-- `AgentStore.receive_events(source_agents=None)`: empty for an agent
that cannot receive events; otherwise `Event.for_agent` with the supplied
sources, defaulting to the subscription graph when `None` is passed. -/
def AgentStore.receive_events (ds : Datastore) (self : AgentStore)
    (source_agents : Option (List AgentStore)) : List Event :=
  if self.can_receive_events = false then []
  else
    let sources :=
      match source_agents with
      | none => SourceAgent.get_source_agents ds self
      | some l => l
    Event.for_agent ds self sources 25

/-- `AgentStore.add_event(data)`: append a payload to the transient
outbox buffer without touching the datastore. -/
def AgentStore.add_event (self : AgentStore) (data : Option EventData) : AgentStore :=
  { self with new_events_queue := self.new_events_queue ++ [data] }

/-- `Event.done()`: set `is_done` and persist the event. -/
def Event.done (ds : Datastore) (e : Event) : Datastore × Event :=
  let done_event : Event := { e with is_done := true }
  (ds.putEvent done_event, done_event)

/-- Result of one capability invocation: a raised error, or an optional
produced payload. -/
abbrev Capability := AgentStore → List Event → Except Unit (Option EventData)

/-- The locked agent record as written by step 2 of `AgentStore.run`. -/
def AgentStore.lock (self : AgentStore) : AgentStore :=
  { self with is_running := true }

/-- The `try` block of `AgentStore.run`: fetch inbound events, reset the
outbox buffer, invoke the capability logic (which may raise), queue a
non-`None` result, and flush the outbox.  An error is returned to the
caller for the `finally` block to clean up after. -/
def AgentStore.tryBody (ds1 : Datastore) (self1 : AgentStore) (cap : Capability) :
    Except Unit (Datastore × AgentStore) :=
  match cap { self1 with new_events_queue := [] }
      (AgentStore.receive_events ds1 self1 none) with
  | Except.error e => Except.error e
  | Except.ok none =>
    Except.ok (AgentStore.put_events_queue ds1 { self1 with new_events_queue := [] })
  | Except.ok (some d) =>
    Except.ok (AgentStore.put_events_queue ds1
      (AgentStore.add_event { self1 with new_events_queue := [] } (some d)))

/-- `AgentStore.run()`: no-op on an inactive agent; otherwise set the run
lock and persist it, execute the `try` block, and in the `finally` step
set `last_run := now`, drop the lock and persist — whether or not the
capability raised.  The returned boolean records whether an error
propagates to the caller after the cleanup. -/
def AgentStore.run (ds : Datastore) (self : AgentStore) (cap : Capability)
    (now : Nat) : Datastore × AgentStore × Bool :=
  if self.is_active = false then (ds, self, false)
  else
    match AgentStore.tryBody (ds.putAgent (AgentStore.lock self))
        (AgentStore.lock self) cap with
    | Except.error _ =>
      ((ds.putAgent (AgentStore.lock self)).putAgent
        { AgentStore.lock self with
          new_events_queue := []
          last_run := now
          is_running := false },
       { AgentStore.lock self with
         new_events_queue := []
         last_run := now
         is_running := false },
       true)
    | Except.ok (ds2, self4) =>
      (ds2.putAgent { self4 with last_run := now, is_running := false },
       { self4 with last_run := now, is_running := false },
       false)

/-- Default field values of a fresh `AgentStore` record, as declared by the
ndb properties (`is_active`, `can_receive_events`, `can_generate_events`
default to true, `is_running` to false). -/
def baseAgent : AgentStore :=
  { key := 0
    name := "a"
    type := "t"
    is_active := true
    last_run := 0
    next_run := 0
    config := 0
    can_receive_events := true
    can_generate_events := true
    is_running := false
    new_events_queue := [] }

/-- Agent record used as concrete input for the `receive_events` capability
guard. -/
def mutedReceiver : AgentStore :=
  { baseAgent with can_receive_events := false }

/-- Agent record with a buffered payload but no generate capability. -/
def mutedProducer : AgentStore :=
  { baseAgent with
    can_generate_events := false
    new_events_queue := [some 1] }

/-- Capability logic that raises on every invocation. -/
def failingCap : Capability := fun _ _ => Except.error ()

/-- Capability logic that succeeds and produces no payload. -/
def idleCap : Capability := fun _ _ => Except.ok none

/-- Concrete source agent for the run scenarios. -/
def sourceRecord : AgentStore := { baseAgent with key := 0, name := "S" }

/-- Concrete listening agent for the run scenarios. -/
def listenerRecord : AgentStore := { baseAgent with key := 1, name := "L" }

/-- Concrete undone inbound event from `sourceRecord` to `listenerRecord`. -/
def inboundEvent : Event :=
  { key := 0, data := 7, source := 0, target := 1, is_done := false }

/-- Store with one subscription edge and one undone inbound event. -/
def runDs : Datastore :=
  ⟨[sourceRecord, listenerRecord], [inboundEvent], [⟨1, 0⟩]⟩

/-- Concrete event already marked done. -/
def doneEvent : Event :=
  { key := 3, data := 9, source := 0, target := 0, is_done := true }

/-- Store holding only the already-done event. -/
def doneDs : Datastore := ⟨[baseAgent], [doneEvent], []⟩

/-- Twenty-six undone events all targeting agent key 50. -/
def manyEvents : List Event :=
  (List.range 26).map (fun i =>
    { key := i, data := i, source := 0, target := 50, is_done := false })

/-- Listening agent with key 50. -/
def wideListener : AgentStore := { baseAgent with key := 50 }

/-- Store holding 26 undone events targeting `wideListener`. -/
def wideDs : Datastore := ⟨[wideListener], manyEvents, []⟩

/-- The 26th event of `manyEvents`, beyond the fetch limit of 25. -/
def missingEvent : Event :=
  { key := 25, data := 25, source := 0, target := 50, is_done := false }

theorem putAgent_events (ds : Datastore) (a : AgentStore) :
    (ds.putAgent a).events = ds.events := by
  unfold Datastore.putAgent
  split <;> rfl

theorem putAgent_edges (ds : Datastore) (a : AgentStore) :
    (ds.putAgent a).edges = ds.edges := by
  unfold Datastore.putAgent
  split <;> rfl

theorem putAgent_mem (ds : Datastore) (a : AgentStore) :
    a ∈ (ds.putAgent a).agents := by
  unfold Datastore.putAgent
  split
  case isTrue h =>
    rcases List.any_eq_true.mp h with ⟨x, hx, hk⟩
    exact List.mem_map.mpr ⟨x, hx, by simp [hk]⟩
  case isFalse h =>
    simp

/-- C5: `due(now)` returns exactly the agents satisfying `nextRun <= now`,
`isRunning=false` and `isActive=true`; in particular it never returns an
agent with `isRunning=true` or `isActive=false`. -/
theorem due_returns_exactly_ready_agents (ds : Datastore) (time : Nat)
    (a : AgentStore) :
    a ∈ AgentStore.due ds time ↔
      a ∈ ds.agents ∧ a.next_run ≤ time ∧ a.is_running = false ∧
        a.is_active = true := by
  simp [AgentStore.due, List.mem_filter, and_assoc]

/-- C10: an agent whose `can_receive_events` flag is false receives the
empty collection from `receive_events`, for every store state and every
source-subset argument. -/
theorem receive_events_requires_capability (ds : Datastore) (self : AgentStore)
    (source_agents : Option (List AgentStore))
    (h : self.can_receive_events = false) :
    AgentStore.receive_events ds self source_agents = [] := by
  simp [AgentStore.receive_events, h]

/-- Witness for C10 at a concrete store and agent. -/
theorem receive_events_requires_capability_witness :
    mutedReceiver.can_receive_events = false ∧
      AgentStore.receive_events ⟨[mutedReceiver], [], []⟩ mutedReceiver none = [] :=
  ⟨rfl, receive_events_requires_capability ⟨[mutedReceiver], [], []⟩ mutedReceiver
    none rfl⟩

/-- C4: flush persists no Event record when the agent cannot generate
events, whatever the buffered payloads. -/
theorem flush_without_generate_persists_nothing (ds : Datastore)
    (self : AgentStore) (h : self.can_generate_events = false) :
    (AgentStore.put_events_queue ds self).1.events = ds.events := by
  unfold AgentStore.put_events_queue
  cases hq : self.new_events_queue with
  | nil => simp [AgentStore.buildEvents, hq, assignEventKeys]
  | cons x rest =>
    cases x with
    | none => simp [AgentStore.buildEvents, hq]
    | some d => simp [AgentStore.buildEvents, hq, h]

/-- Witness for C4 at a concrete store and agent. -/
theorem flush_without_generate_persists_nothing_witness :
    mutedProducer.can_generate_events = false ∧
      (AgentStore.put_events_queue ⟨[mutedProducer], [], []⟩ mutedProducer).1.events = [] :=
  ⟨rfl, flush_without_generate_persists_nothing ⟨[mutedProducer], [], []⟩
    mutedProducer rfl⟩

theorem replace_event_map_idem (ev : Event) (l : List Event) :
    (l.map (fun x => if x.key == ev.key then ev else x)).map
        (fun x => if x.key == ev.key then ev else x) =
      l.map (fun x => if x.key == ev.key then ev else x) := by
  rw [List.map_map]
  apply List.map_congr_left
  intro x _
  simp only [Function.comp_apply]
  by_cases h : (x.key == ev.key) = true
  · simp [h]
  · simp [h]

theorem replace_event_map_of_absent (ev : Event) (l : List Event)
    (h : l.any (fun x => x.key == ev.key) = false) :
    l.map (fun x => if x.key == ev.key then ev else x) = l := by
  induction l with
  | nil => rfl
  | cons a t ih =>
    simp only [List.any_cons, Bool.or_eq_false_iff] at h
    have hcond : ¬ ((a.key == ev.key) = true) := by simp [h.1]
    rw [List.map_cons, if_neg hcond, ih h.2]

theorem putEvent_of_any_true (ds : Datastore) (ev : Event)
    (h : ds.events.any (fun x => x.key == ev.key) = true) :
    ds.putEvent ev =
      { ds with events := ds.events.map (fun x => if x.key == ev.key then ev else x) } := by
  unfold Datastore.putEvent
  rw [if_pos h]

theorem putEvent_of_any_false (ds : Datastore) (ev : Event)
    (h : ds.events.any (fun x => x.key == ev.key) = false) :
    ds.putEvent ev = { ds with events := ds.events ++ [ev] } := by
  unfold Datastore.putEvent
  rw [if_neg (by simp [h])]

theorem putEvent_putEvent_same (ds : Datastore) (ev : Event) :
    (ds.putEvent ev).putEvent ev = ds.putEvent ev := by
  cases h : ds.events.any (fun x => x.key == ev.key) with
  | true =>
    rcases List.any_eq_true.mp h with ⟨x, hx1, hx2⟩
    have hmem : ev ∈ ds.events.map (fun x => if x.key == ev.key then ev else x) :=
      List.mem_map.mpr ⟨x, hx1, by rw [if_pos hx2]⟩
    have hany : (ds.events.map (fun x => if x.key == ev.key then ev else x)).any
        (fun x => x.key == ev.key) = true :=
      List.any_eq_true.mpr ⟨ev, hmem, by simp⟩
    rw [putEvent_of_any_true ds ev h, putEvent_of_any_true _ ev hany]
    simp only []
    congr 1
    exact replace_event_map_idem ev ds.events
  | false =>
    have hany : ((ds.events ++ [ev]).any (fun x => x.key == ev.key)) = true :=
      List.any_eq_true.mpr ⟨ev, by simp, by simp⟩
    rw [putEvent_of_any_false ds ev h, putEvent_of_any_true _ ev hany]
    congr 1
    rw [List.map_append, replace_event_map_of_absent ev ds.events h]
    simp

/-- C9: marking an event done is idempotent — a second `done()` call on
the result leaves both the datastore and the event record exactly as
after the first call. -/
theorem mark_done_idempotent (ds : Datastore) (e : Event) :
    Event.done (Event.done ds e).1 (Event.done ds e).2 = Event.done ds e := by
  unfold Event.done
  simp [putEvent_putEvent_same]

theorem buildEvents_isSome_iff (ds : Datastore) (self : AgentStore)
    (q : List (Option EventData)) :
    (AgentStore.buildEvents ds self q).isSome = true ↔
      (q = [] ∨ (self.can_generate_events = true ∧ none ∉ q)) := by
  induction q with
  | nil => simp [AgentStore.buildEvents]
  | cons x rest ih =>
    cases x with
    | none => simp [AgentStore.buildEvents]
    | some d =>
      cases hg : self.can_generate_events with
      | false => simp [AgentStore.buildEvents, hg]
      | true =>
        cases hb : AgentStore.buildEvents ds self rest with
        | none =>
          rw [hb] at ih
          simp only [Option.isSome_none, Bool.false_eq_true, false_iff] at ih
          push_neg at ih
          have hmem : none ∈ rest := ih.2 hg
          simp [AgentStore.buildEvents, hg, hb, hmem]
        | some evs =>
          rw [hb] at ih
          simp only [Option.isSome_some, true_iff] at ih
          simp [AgentStore.buildEvents, hg, hb]
          rcases ih with h0 | h1
          · simp [h0]
          · exact h1.2

/-- C2 (amended): flush clears the outbox buffer exactly when it runs to
completion — when the buffer is empty, or when the agent can generate
events and no buffered payload is `None`; on the early-return paths the
buffer is left untouched. -/
theorem flush_clears_outbox_iff_completes (ds : Datastore) (self : AgentStore) :
    (AgentStore.put_events_queue ds self).2.new_events_queue =
      if self.new_events_queue = [] ∨
          (self.can_generate_events = true ∧ none ∉ self.new_events_queue)
      then [] else self.new_events_queue := by
  unfold AgentStore.put_events_queue
  cases hb : AgentStore.buildEvents ds self self.new_events_queue with
  | none =>
    have hiff := buildEvents_isSome_iff ds self self.new_events_queue
    rw [hb] at hiff
    simp only [Option.isSome_none, Bool.false_eq_true, false_iff] at hiff
    rw [if_neg hiff]
  | some evs =>
    have hiff := buildEvents_isSome_iff ds self self.new_events_queue
    rw [hb] at hiff
    simp only [Option.isSome_some, true_iff] at hiff
    rw [if_pos hiff]

/-- C2 (counterexample): flushing an agent that cannot generate events but
holds a buffered payload leaves the outbox buffer non-empty, contradicting
the unconditional-clear claim. -/
theorem flush_unconditional_clear_counterexample :
    (AgentStore.put_events_queue ⟨[mutedProducer], [], []⟩ mutedProducer).2.new_events_queue
      = [some 1] ∧ ([some 1] : List (Option EventData)) ≠ [] := by
  constructor
  · rfl
  · simp

theorem filterMap_generating_edges (k : Nat) (l : List AgentStore) :
    (l.filterMap (fun s =>
        if s.can_generate_events = false then none
        else some (SourceAgent.mk k s.key))) =
      (l.filter (fun s => s.can_generate_events)).map
        (fun s => SourceAgent.mk k s.key) := by
  induction l with
  | nil => rfl
  | cons a t ih =>
    cases h : a.can_generate_events with
    | false => simp [List.filterMap_cons, List.filter_cons, h, ih]
    | true => simp [List.filterMap_cons, List.filter_cons, h, ih]

/-- C6: `new` creates exactly one subscription edge per supplied source
that can generate events — in the supplied order, each pointing from the
new agent to that source — skips sources that cannot generate events, and
creates no edge at all when the new agent's class cannot receive events;
the fresh agent's key is the pre-registration number of agent records. -/
theorem register_creates_edges_per_generating_source (ds : Datastore)
    (name ty : String) (cls_can_receive cls_can_generate : Bool)
    (srcs : List AgentStore) (config : Nat) :
    (AgentStore.new ds name ty cls_can_receive cls_can_generate
        (some srcs) config).1.edges =
      ds.edges ++
        (if cls_can_receive = true then
          (srcs.filter (fun s => s.can_generate_events)).map
            (fun s => SourceAgent.mk ds.agents.length s.key)
        else []) ∧
    (AgentStore.new ds name ty cls_can_receive cls_can_generate
        (some srcs) config).2.key = ds.agents.length := by
  cases h : cls_can_receive with
  | false =>
    constructor
    · simp [AgentStore.new, putAgent_edges]
    · rfl
  | true =>
    constructor
    · simp [AgentStore.new, putAgent_edges, filterMap_generating_edges]
    · rfl

/-- C8 (amended): for an agent able to receive events, an explicitly empty
source subset means no source filter — the first 25 (the fetch limit)
undone events targeting the agent are returned regardless of source —
while a non-empty subset further restricts the result to events whose
source is a member of the subset; in both cases events beyond the fetch
limit of 25 are not returned. -/
theorem receive_events_source_filter_semantics (ds : Datastore)
    (self : AgentStore) (subset : List AgentStore)
    (h : self.can_receive_events = true) :
    (AgentStore.receive_events ds self (some []) =
      (ds.events.filter (fun e =>
        (e.is_done == false) && (e.target == self.key))).take 25) ∧
    (subset ≠ [] →
      AgentStore.receive_events ds self (some subset) =
        (ds.events.filter (fun e =>
          (e.is_done == false) && (e.target == self.key) &&
            ((subset.map (fun s => s.key)).contains e.source))).take 25) := by
  constructor
  · simp [AgentStore.receive_events, h, Event.for_agent]
  · intro hne
    have hempty : subset.isEmpty = false := by
      cases subset with
      | nil => exact absurd rfl hne
      | cons a t => rfl
    simp [AgentStore.receive_events, h, Event.for_agent, hempty,
      List.filter_filter]
    congr 1
    apply List.filter_congr
    intro a _
    exact Bool.and_comm _ _

/-- Witness for C8 at a concrete store, listener and source subset. -/
theorem receive_events_source_filter_semantics_witness :
    listenerRecord.can_receive_events = true ∧
    ((AgentStore.receive_events runDs listenerRecord (some []) =
      (runDs.events.filter (fun e =>
        (e.is_done == false) && (e.target == listenerRecord.key))).take 25) ∧
    ([sourceRecord] ≠ [] →
      AgentStore.receive_events runDs listenerRecord (some [sourceRecord]) =
        (runDs.events.filter (fun e =>
          (e.is_done == false) && (e.target == listenerRecord.key) &&
            (([sourceRecord].map (fun s => s.key)).contains e.source))).take 25)) :=
  ⟨rfl, receive_events_source_filter_semantics runDs listenerRecord
    [sourceRecord] rfl⟩

/-- C8 (counterexample): an undone event targeting a receiving agent is
not returned by `receive_events` with the explicitly empty subset when it
lies beyond the fetch limit of 25, refuting the claim that all such
events are returned. -/
theorem receive_events_fetch_limit_counterexample :
    missingEvent ∈ wideDs.events ∧ missingEvent.is_done = false ∧
    missingEvent.target = wideListener.key ∧
    wideListener.can_receive_events = true ∧
    missingEvent ∉ AgentStore.receive_events wideDs wideListener (some []) := by
  refine ⟨by decide, rfl, rfl, rfl, by decide⟩

theorem done_not_in_for_agent (ds : Datastore) (agent : AgentStore)
    (srcs : List AgentStore) (limit : Nat) (e : Event)
    (h : e.is_done = true) : e ∉ Event.for_agent ds agent srcs limit := by
  intro hm
  simp only [Event.for_agent] at hm
  have hm2 := List.take_subset _ _ hm
  have hm3 : e ∈ ds.events.filter (fun x =>
      (x.is_done == false) && (x.target == agent.key)) := by
    by_cases hs : srcs.isEmpty = true
    · rwa [if_pos hs] at hm2
    · rw [if_neg hs] at hm2
      exact List.mem_of_mem_filter hm2
  have hp := (List.mem_filter.mp hm3).2
  simp [h] at hp

theorem put_events_queue_appends (ds : Datastore) (self : AgentStore) :
    ∃ tail, (AgentStore.put_events_queue ds self).1.events = ds.events ++ tail := by
  unfold AgentStore.put_events_queue
  cases hb : AgentStore.buildEvents ds self self.new_events_queue with
  | none => exact ⟨[], by simp⟩
  | some evs => exact ⟨assignEventKeys ds.events.length evs, rfl⟩

theorem putEvent_keeps_done (ds : Datastore) (dv e : Event)
    (hdv : dv.is_done = true) (h1 : e.is_done = true) (h2 : e ∈ ds.events) :
    ∃ e2, e2 ∈ (ds.putEvent dv).events ∧ e2.key = e.key ∧ e2.is_done = true := by
  cases h : ds.events.any (fun x => x.key == dv.key) with
  | true =>
    rw [putEvent_of_any_true ds dv h]
    by_cases hk : (e.key == dv.key) = true
    · refine ⟨dv, List.mem_map.mpr ⟨e, h2, by rw [if_pos hk]⟩, ?_, hdv⟩
      exact (beq_iff_eq.mp hk).symm
    · exact ⟨e, List.mem_map.mpr ⟨e, h2, by rw [if_neg hk]⟩, rfl, h1⟩
  | false =>
    rw [putEvent_of_any_false ds dv h]
    exact ⟨e, List.mem_append_left _ h2, rfl, h1⟩

/-- C7: once an event is marked done it is excluded from every
`for_agent` inbox query and every `receive_events` call, for every target
agent, source filter and limit; and no modelled store operation resets the
flag — `done()` on any event keeps every done event done (tracked by key),
and a flush only appends new records, leaving the done event in place. -/
theorem done_event_permanently_excluded (ds : Datastore)
    (self agent : AgentStore) (srcs : List AgentStore) (limit : Nat)
    (subset : Option (List AgentStore)) (ev e : Event)
    (h1 : e.is_done = true) (h2 : e ∈ ds.events) :
    e ∉ Event.for_agent ds agent srcs limit ∧
    e ∉ AgentStore.receive_events ds agent subset ∧
    (∃ e2, e2 ∈ (Event.done ds ev).1.events ∧ e2.key = e.key ∧
      e2.is_done = true) ∧
    e ∈ (AgentStore.put_events_queue ds self).1.events := by
  refine ⟨done_not_in_for_agent ds agent srcs limit e h1, ?_, ?_, ?_⟩
  · unfold AgentStore.receive_events
    by_cases hr : agent.can_receive_events = false
    · rw [if_pos hr]
      exact List.not_mem_nil e
    · rw [if_neg hr]
      exact done_not_in_for_agent ds agent _ 25 e h1
  · exact putEvent_keeps_done ds { ev with is_done := true } e rfl h1 h2
  · rcases put_events_queue_appends ds self with ⟨tail, ht⟩
    rw [ht]
    exact List.mem_append_left _ h2

/-- Witness for C7 at a concrete store, agents and done event. -/
theorem done_event_permanently_excluded_witness :
    doneEvent.is_done = true ∧ doneEvent ∈ doneDs.events ∧
    (doneEvent ∉ Event.for_agent doneDs baseAgent [] 25 ∧
    doneEvent ∉ AgentStore.receive_events doneDs baseAgent none ∧
    (∃ e2, e2 ∈ (Event.done doneDs doneEvent).1.events ∧
      e2.key = doneEvent.key ∧ e2.is_done = true) ∧
    doneEvent ∈ (AgentStore.put_events_queue doneDs baseAgent).1.events) :=
  ⟨rfl, by simp [doneDs],
    done_event_permanently_excluded doneDs baseAgent baseAgent [] 25 none
      doneEvent doneEvent rfl (by simp [doneDs])⟩

/-- C3: a `run` call on an active agent always terminates with the run
lock dropped and `last_run` set to the current time, with that final
record persisted in the store, whether or not the capability logic
raised; and an error from the `try` block is exactly what the call
propagates to the caller after the cleanup. -/
theorem run_guaranteed_cleanup (ds : Datastore) (self : AgentStore)
    (cap : Capability) (now : Nat) (h : self.is_active = true) :
    ((AgentStore.run ds self cap now).2.1.is_running = false) ∧
    ((AgentStore.run ds self cap now).2.1.last_run = now) ∧
    ((AgentStore.run ds self cap now).2.1 ∈
      (AgentStore.run ds self cap now).1.agents) ∧
    ((AgentStore.run ds self cap now).2.2 = true ↔
      ∃ err, AgentStore.tryBody (ds.putAgent (AgentStore.lock self))
        (AgentStore.lock self) cap = Except.error err) := by
  have hneg : ¬ (self.is_active = false) := by simp [h]
  unfold AgentStore.run
  rw [if_neg hneg]
  cases htb : AgentStore.tryBody (ds.putAgent (AgentStore.lock self))
      (AgentStore.lock self) cap with
  | error err =>
    exact ⟨rfl, rfl, putAgent_mem _ _, by simp⟩
  | ok val =>
    obtain ⟨d2, s4⟩ := val
    exact ⟨rfl, rfl, putAgent_mem _ _, by simp⟩

/-- Witness for C3 at a concrete store, active agent and raising
capability. -/
theorem run_guaranteed_cleanup_witness :
    baseAgent.is_active = true ∧
    (((AgentStore.run ⟨[baseAgent], [], []⟩ baseAgent failingCap 7).2.1.is_running = false) ∧
    ((AgentStore.run ⟨[baseAgent], [], []⟩ baseAgent failingCap 7).2.1.last_run = 7) ∧
    ((AgentStore.run ⟨[baseAgent], [], []⟩ baseAgent failingCap 7).2.1 ∈
      (AgentStore.run ⟨[baseAgent], [], []⟩ baseAgent failingCap 7).1.agents) ∧
    ((AgentStore.run ⟨[baseAgent], [], []⟩ baseAgent failingCap 7).2.2 = true ↔
      ∃ err, AgentStore.tryBody
        ((⟨[baseAgent], [], []⟩ : Datastore).putAgent (AgentStore.lock baseAgent))
        (AgentStore.lock baseAgent) failingCap = Except.error err)) :=
  ⟨rfl, run_guaranteed_cleanup ⟨[baseAgent], [], []⟩ baseAgent failingCap 7 rfl⟩

theorem tryBody_ok_events (ds1 : Datastore) (self1 : AgentStore)
    (cap : Capability) (d2 : Datastore) (s4 : AgentStore)
    (h : AgentStore.tryBody ds1 self1 cap = Except.ok (d2, s4)) :
    ∃ tail, d2.events = ds1.events ++ tail := by
  unfold AgentStore.tryBody at h
  cases hc : cap { self1 with new_events_queue := [] }
      (AgentStore.receive_events ds1 self1 none) with
  | error e =>
    rw [hc] at h
    cases h
  | ok result =>
    rw [hc] at h
    cases result with
    | none =>
      simp only [Except.ok.injEq] at h
      have hd : (AgentStore.put_events_queue ds1
          { self1 with new_events_queue := [] }).1 = d2 := congrArg Prod.fst h
      rcases put_events_queue_appends ds1
        { self1 with new_events_queue := [] } with ⟨tail, ht⟩
      exact ⟨tail, by rw [← hd]; exact ht⟩
    | some d =>
      simp only [Except.ok.injEq] at h
      have hd : (AgentStore.put_events_queue ds1
          (AgentStore.add_event { self1 with new_events_queue := [] } (some d))).1 = d2 :=
        congrArg Prod.fst h
      rcases put_events_queue_appends ds1
        (AgentStore.add_event { self1 with new_events_queue := [] } (some d)) with ⟨tail, ht⟩
      exact ⟨tail, by rw [← hd]; exact ht⟩

/-- C1 (amended): `run` never marks fetched events done, on success or on
failure — every pre-existing event record, fetched ones included, is left
verbatim in the store (a run only appends newly produced events), so
inbound events always remain eligible for re-fetch on the next run until
some caller invokes `done()` on them itself. -/
theorem run_never_marks_events_done (ds : Datastore) (self : AgentStore)
    (cap : Capability) (now : Nat) :
    ∃ tail, (AgentStore.run ds self cap now).1.events = ds.events ++ tail := by
  unfold AgentStore.run
  by_cases h : self.is_active = false
  · rw [if_pos h]
    exact ⟨[], by simp⟩
  · rw [if_neg h]
    cases htb : AgentStore.tryBody (ds.putAgent (AgentStore.lock self))
        (AgentStore.lock self) cap with
    | error err =>
      refine ⟨[], ?_⟩
      rw [putAgent_events, putAgent_events]
      simp
    | ok val =>
      obtain ⟨d2, s4⟩ := val
      rcases tryBody_ok_events _ _ cap d2 s4 htb with ⟨tail, ht⟩
      refine ⟨tail, ?_⟩
      rw [putAgent_events, ht, putAgent_events]

/-- C1 (counterexample): a successful run that fetched exactly one
undone inbound event leaves that event undone in the store afterwards —
no mark-done step exists in `run`. -/
theorem run_marks_done_counterexample :
    ((AgentStore.run runDs listenerRecord idleCap 5).2.2 = false) ∧
    (AgentStore.receive_events (runDs.putAgent (AgentStore.lock listenerRecord))
      (AgentStore.lock listenerRecord) none = [inboundEvent]) ∧
    inboundEvent ∈ (AgentStore.run runDs listenerRecord idleCap 5).1.events ∧
    inboundEvent.is_done = false := by
  refine ⟨by decide, by decide, by decide, rfl⟩

end Muninn
